import Mathlib

/-!
Verification of the FinTrack synchronization engine (src/database.js).

The JavaScript source is shallowly embedded: transaction records become an
inductive type, ISO timestamp strings become integers ordered like the dates
they denote, `localStorage` payloads become explicit payload values, and each
method of `SyncEngine` / `FinanceDatabase` / `ConflictResolver` becomes a pure
Lean function over those values.
-/

/-- One transaction record as handled by the sync engine. JS objects are open
maps; we model exactly the fields the engine reads or writes. `date` and
`createdAt` (ISO strings in JS, compared through `new Date`) are integers
ordered like the dates. `created_at` models the snake_case property read by
`SyncEngine.hasUserChanges`; records minted by this engine never set it, so it
is `none` (JS `undefined`) there. `originalCloudVersion` and
`originalLocalVersion` are the provenance attachments written by
`ConflictResolver.resolve`; they hold full records, hence the nested
inductive. -/
inductive Txn : Type where
  | mk (id : String) (date : Int) (createdAt : Int) (amount : Int)
       (deleted : Bool) (syncStatus : String) (source : Option String)
       (conflictResolution : Option String)
       (originalCloudVersion : Option Txn)
       (originalLocalVersion : Option Txn)
       (created_at : Option Int) : Txn

def Txn.id : Txn → String
  | .mk i _ _ _ _ _ _ _ _ _ _ => i

def Txn.date : Txn → Int
  | .mk _ d _ _ _ _ _ _ _ _ _ => d

def Txn.createdAt : Txn → Int
  | .mk _ _ c _ _ _ _ _ _ _ _ => c

def Txn.amount : Txn → Int
  | .mk _ _ _ a _ _ _ _ _ _ _ => a

def Txn.deleted : Txn → Bool
  | .mk _ _ _ _ del _ _ _ _ _ _ => del

def Txn.syncStatus : Txn → String
  | .mk _ _ _ _ _ s _ _ _ _ _ => s

def Txn.source : Txn → Option String
  | .mk _ _ _ _ _ _ src _ _ _ _ => src

def Txn.conflictResolution : Txn → Option String
  | .mk _ _ _ _ _ _ _ cr _ _ _ => cr

def Txn.originalCloudVersion : Txn → Option Txn
  | .mk _ _ _ _ _ _ _ _ ocv _ _ => ocv

def Txn.originalLocalVersion : Txn → Option Txn
  | .mk _ _ _ _ _ _ _ _ _ olv _ => olv

def Txn.created_at : Txn → Option Int
  | .mk _ _ _ _ _ _ _ _ _ _ ca => ca

/-- The spread `{...transaction, syncStatus: 'synced', source: 'cloud'}`
applied to every cloud record in `SyncEngine.syncTransactions`: only those two
properties are overridden, everything else is kept. -/
def setCloudSynced : Txn → Txn
  | .mk i d c a del _ _ cr ocv olv ca =>
      .mk i d c a del "synced" (some "cloud") cr ocv olv ca

/-- The spread `{...transaction, syncStatus: 'pending', source: 'local'}`
applied in `SyncEngine.syncTransactions` to a local record absent from the
cloud set. -/
def setLocalPending : Txn → Txn
  | .mk i d c a del _ _ cr ocv olv ca =>
      .mk i d c a del "pending" (some "local") cr ocv olv ca

namespace ConflictResolver

/-- `ConflictResolver.resolve` (src/database.js:1404-1424). The comparison
`new Date(localTransaction.createdAt) > new Date(cloudTransaction.createdAt)`
becomes an integer comparison. The local branch spreads the local record and
overrides `syncStatus`, `conflictResolution` and `originalCloudVersion`; the
cloud branch spreads the cloud record and overrides `syncStatus`,
`conflictResolution` and `originalLocalVersion`. -/
def resolve (localTransaction cloudTransaction : Txn) : Txn :=
  if cloudTransaction.createdAt < localTransaction.createdAt then
    match localTransaction with
    | .mk i d c a del _ src _ _ olv ca =>
        .mk i d c a del "conflict_resolved" src (some "local_wins")
          (some cloudTransaction) olv ca
  else
    match cloudTransaction with
    | .mk i d c a del _ src _ ocv _ ca =>
        .mk i d c a del "synced" src (some "cloud_wins") ocv
          (some localTransaction) ca

end ConflictResolver

/-- Insertion step of the stable descending-by-`date` sort that models
`merged.sort((a, b) => new Date(b.date) - new Date(a.date))`: `x` is placed
before the first element whose date is at most its own, so among equal dates
the earlier element of the input stays first, matching the stability of
`Array.prototype.sort`. -/
def insertByDateDesc (x : Txn) : List Txn → List Txn
  | [] => [x]
  | y :: ys => if y.date ≤ x.date then x :: y :: ys else y :: insertByDateDesc x ys

/-- Stable sort by `date` descending, the order semantics of the JS sort call
at the end of `SyncEngine.syncTransactions`. -/
def sortByDateDesc : List Txn → List Txn
  | [] => []
  | x :: xs => insertByDateDesc x (sortByDateDesc xs)

/-- Body of the local-records loop of `SyncEngine.syncTransactions`
(src/database.js:1175-1192): a local transaction whose id is in `seenIds` is
skipped; otherwise the cloud set is searched again for a version with the same
id — found: the conflict resolver runs; not found: the record is appended
retagged `pending`. Note the source never adds local ids to `seenIds`. -/
def mergeLocalStep (cloudTransactions : List Txn) (seenIds : List String)
    (acc : List Txn) (transaction : Txn) : List Txn :=
  if transaction.id ∈ seenIds then acc
  else
    match cloudTransactions.find? (fun t => t.id == transaction.id) with
    | none => acc ++ [setLocalPending transaction]
    | some cloudVersion => acc ++ [ConflictResolver.resolve transaction cloudVersion]

namespace SyncEngine

/-- `SyncEngine.syncTransactions` (src/database.js:1160-1198): every cloud
record is emitted retagged `synced`/`cloud` and its id recorded in `seenIds`;
then the local loop of `mergeLocalStep` runs; finally the merged list is
sorted by `date` descending. -/
def syncTransactions (localTransactions cloudTransactions : List Txn) : List Txn :=
  sortByDateDesc
    (localTransactions.foldl
      (mergeLocalStep cloudTransactions (cloudTransactions.map Txn.id))
      (cloudTransactions.map setCloudSynced))

end SyncEngine

/-- Instrumented variant of `mergeLocalStep` that additionally counts how many
times `ConflictResolver.resolve` is invoked. -/
def mergeLocalStepCounted (cloudTransactions : List Txn) (seenIds : List String)
    (acc : List Txn × Nat) (transaction : Txn) : List Txn × Nat :=
  if transaction.id ∈ seenIds then acc
  else
    match cloudTransactions.find? (fun t => t.id == transaction.id) with
    | none => (acc.1 ++ [setLocalPending transaction], acc.2)
    | some cloudVersion =>
        (acc.1 ++ [ConflictResolver.resolve transaction cloudVersion], acc.2 + 1)

/-- `SyncEngine.syncTransactions` instrumented with a resolver-invocation
counter; its first component is proved equal to `SyncEngine.syncTransactions`
below. -/
def syncTransactionsCounted (localTransactions cloudTransactions : List Txn) :
    List Txn × Nat :=
  (sortByDateDesc
    (localTransactions.foldl
      (mergeLocalStepCounted cloudTransactions (cloudTransactions.map Txn.id))
      (cloudTransactions.map setCloudSynced, 0)).1,
   (localTransactions.foldl
      (mergeLocalStepCounted cloudTransactions (cloudTransactions.map Txn.id))
      (cloudTransactions.map setCloudSynced, 0)).2)

/-- Sync log entry (`logSyncEvent` pushes `{event, username, deviceId,
timestamp, details}`); we keep the fields the engine writes and later reads. -/
structure LogEntry where
  event : String
  timestamp : Int
deriving DecidableEq

/-- The parsed cloud blob `localStorage[FinanceCloudSync]`. JS objects may
lack properties, so each collection is an `Option` (`none` = JS `undefined`).
`transactions` is doubly optional: the outer level is the presence of the
`transactions` object itself, the inner level the presence of the entry for
the one user under consideration. -/
structure CloudData where
  users : Option Unit
  transactions : Option (Option (List Txn))
  devices : Option Unit
  syncLog : Option (List LogEntry)
  locks : Option Unit
  lastModified : Option Int

/-- The object `JSON.parse('{}')` yields: no properties at all. -/
def CloudData.emptyObject : CloudData := ⟨none, none, none, none, none, none⟩

/-- The fallback object built in the catch branch of `getCloudData`:
`{ users: {}, transactions: {}, devices: {}, syncLog: [], locks: {} }` — all
collections present and empty (the per-user transactions entry absent). -/
def CloudData.defaultData : CloudData :=
  ⟨some (), some none, some (), some [], some (), none⟩

/-- Backing state of a `localStorage` key: absent, present but unparseable,
or present with a parsed value. -/
inductive CloudPayload : Type where
  | missing
  | corrupt
  | valid (d : CloudData)

/-- Backing state of the per-user local key `transactions_<username>`. -/
inductive LocalPayload : Type where
  | missing
  | corrupt
  | valid (ts : List Txn)

namespace SyncEngine

/-- `SyncEngine.getCloudData` (src/database.js:979-986):
`JSON.parse(localStorage.getItem(cloudStorage) || '{}')`. A missing payload
parses the substituted `'{}'` into an object with no collections; only a
corrupt payload throws and reaches the catch branch returning the full
default. -/
def getCloudData : CloudPayload → CloudData
  | .missing => CloudData.emptyObject
  | .corrupt => CloudData.defaultData
  | .valid d => d

/-- `SyncEngine.getLocalTransactions` (src/database.js:1211-1219):
`data ? JSON.parse(data) : []` with a catch returning `[]`. -/
def getLocalTransactions : LocalPayload → List Txn
  | .missing => []
  | .corrupt => []
  | .valid ts => ts

end SyncEngine

/-- State of the sync orchestrator together with the storage it touches, for
one authenticated user. `writesFail` models the persistence layer rejecting
`localStorage.setItem` (throwing inside the save helpers). `uiStatus` is the
status string last passed to `updateSyncStatus`. -/
structure World where
  cloudPayload : CloudPayload
  localPayload : LocalPayload
  writesFail : Bool
  username : Option String
  syncInProgress : Bool
  uiStatus : String
  lastSync : Option Int

namespace SyncEngine

/-- `SyncEngine.saveCloudData` (src/database.js:989-998): sets
`data.lastModified` then `setItem`; a rejected write is caught and `false`
returned, leaving the stored payload unchanged. -/
def saveCloudData (w : World) (data : CloudData) (now : Int) : World × Bool :=
  if w.writesFail then (w, false)
  else ({ w with cloudPayload := .valid { data with lastModified := some now } }, true)

/-- `SyncEngine.saveLocalTransactions` (src/database.js:1222-1230): `setItem`
with a catch returning `false`. -/
def saveLocalTransactions (w : World) (ts : List Txn) : World × Bool :=
  if w.writesFail then (w, false)
  else ({ w with localPayload := .valid ts }, true)

/-- `SyncEngine.hasLocalChanges` (src/database.js:1201-1208). -/
def hasLocalChanges (localTransactions cloudTransactions : List Txn) : Bool :=
  localTransactions.length != cloudTransactions.length ||
    localTransactions.any (fun t => t.syncStatus == "pending")

/-- `SyncEngine.logSyncEvent` (src/database.js:1322-1339): re-reads the cloud
payload, pushes an entry onto `syncLog`, caps the log at 1000 by keeping the
last 500 (`slice(-500)`), and saves. `cloudData.syncLog.push` throws when the
parsed object has no `syncLog` property; `none` models that thrown error. -/
def logSyncEvent (w : World) (event : String) (now : Int) : Option World :=
  let cloudData := getCloudData w.cloudPayload
  match cloudData.syncLog with
  | none => none
  | some log =>
      let log1 := log ++ [⟨event, now⟩]
      let log2 := if log1.length > 1000 then log1.drop (log1.length - 500) else log1
      some (saveCloudData w { cloudData with syncLog := some log2 } now).1

/-- The catch branch of `performSync` followed by its finally block:
`updateSyncStatus('error')`, `logSyncEvent('sync_error', ...)` (which may
itself throw, changing nothing further), then `syncInProgress = false`. -/
def syncErrorExit (w : World) (now : Int) : World :=
  let w1 : World := { w with uiStatus := "error" }
  match logSyncEvent w1 "sync_error" now with
  | some w2 => { w2 with syncInProgress := false }
  | none => { w1 with syncInProgress := false }

/-- `SyncEngine.performSync` (src/database.js:1115-1157). Guard: return at
once unless a user is set and no cycle is in flight; the returned Bool is
whether the cycle body was entered. Body: read the cloud blob (reading
`cloudData.transactions[username]` throws when the `transactions` object is
absent — the first error exit), read local transactions, merge, save locally
(result ignored), save to the cloud when `hasLocalChanges` (result ignored),
record the sync timestamp, show `synced`, and log `sync_completed` (whose
`syncLog.push` may throw — the second error exit). The finally block clears
`syncInProgress`. -/
def performSync (now : Int) (w : World) : World × Bool :=
  if w.username.isNone || w.syncInProgress then (w, false)
  else
    let cloudData := getCloudData w.cloudPayload
    match cloudData.transactions with
    | none => (syncErrorExit w now, true)
    | some userEntry =>
        let cloudTransactions := userEntry.getD []
        let localTransactions := getLocalTransactions w.localPayload
        let syncedTransactions := syncTransactions localTransactions cloudTransactions
        let w1 := (saveLocalTransactions w syncedTransactions).1
        let w2 :=
          if hasLocalChanges localTransactions cloudTransactions then
            (saveCloudData w1
              { cloudData with transactions := some (some syncedTransactions) } now).1
          else w1
        let w3 : World := { w2 with lastSync := some now, uiStatus := "synced" }
        match logSyncEvent w3 "sync_completed" now with
        | some w4 => ({ w4 with syncInProgress := false }, true)
        | none => (syncErrorExit w3 now, true)

/-- The `focus` listener (src/database.js:896-900):
`if (this.username && !this.syncInProgress) this.performSync()`. -/
def onFocus (now : Int) (w : World) : World :=
  if w.username.isSome && !w.syncInProgress then (performSync now w).1 else w

/-- The `visibilitychange` listener (src/database.js:903-907): fires only when
the document became visible, with the same user and in-progress guard. -/
def onVisibilityChange (now : Int) (hidden : Bool) (w : World) : World :=
  if !hidden && w.username.isSome && !w.syncInProgress then (performSync now w).1 else w

/-- The periodic 3 second timer of `setupPeriodicSync`
(src/database.js:948-955). -/
def onTimerTick (now : Int) (visible : Bool) (w : World) : World :=
  if w.username.isSome && !w.syncInProgress && visible then (performSync now w).1 else w

/-- Last `created_at` access of `hasUserChanges`: JS reads
`list[list.length - 1].created_at` on a nonempty list (usually `undefined`,
since this engine mints `createdAt`, not `created_at`) and substitutes `null`
on an empty one; both `undefined` and `null` collapse to `none` here, which
is faithful because the two sides being compared are either both from
nonempty or both from empty lists once the length test passed. -/
def lastCreatedAt (ts : List Txn) : Option Int :=
  match ts.getLast? with
  | some t => t.created_at
  | none => none

/-- `SyncEngine.hasUserChanges` (src/database.js:929-945). -/
def hasUserChanges (newTransactions oldTransactions : List Txn) : Bool :=
  newTransactions.length != oldTransactions.length ||
    lastCreatedAt newTransactions != lastCreatedAt oldTransactions

/-- `SyncEngine.handleStorageChange` (src/database.js:911-926), fed with the
parsed per-user transaction lists of the storage event old and new values:
dropped when no user is set or a cycle is in flight, otherwise a sync runs
when `hasUserChanges` holds (the 100 ms `setTimeout` only delays it). -/
def handleStorageChange (now : Int) (newTransactions oldTransactions : List Txn)
    (w : World) : World :=
  if w.username.isNone || w.syncInProgress then w
  else if hasUserChanges newTransactions oldTransactions then (performSync now w).1
  else w

/-- `SyncEngine.forceSync` (src/database.js:1373-1381): throws without a
user, otherwise awaits `performSync`. -/
def forceSync (now : Int) (w : World) : Except String World :=
  if w.username.isNone then .error "user not authenticated"
  else .ok (performSync now w).1

/-- `SyncEngine.deleteTransaction` (src/database.js:1256-1279), effect on the
per-user cloud list and the local list: both are filtered with
`t => t.id !== transactionId`, physically removing the record (a
`performSync` follows, src/database.js:1276). -/
def deleteTransaction (cloudTransactions localTransactions : List Txn)
    (transactionId : String) : List Txn × List Txn :=
  (cloudTransactions.filter (fun t => t.id != transactionId),
   localTransactions.filter (fun t => t.id != transactionId))

end SyncEngine

/-- Row of the `transactions` table of `FinanceDatabase`, with the fields its
`deleteTransaction` touches. -/
structure DbTxn where
  id : Nat
  user_id : Nat
  amount : Int
  is_deleted : Bool
  updated_at : Int
deriving DecidableEq

/-- JS `find` followed by in-place mutation of the found row: apply `f` to
the first element satisfying `p`, keep everything else. -/
def updateFirst (p : DbTxn → Bool) (f : DbTxn → DbTxn) : List DbTxn → List DbTxn
  | [] => []
  | t :: ts => if p t then f t :: ts else t :: updateFirst p f ts

namespace FinanceDatabase

/-- `FinanceDatabase.deleteTransaction` (src/database.js:555-570): find the
row by id and user, throw when absent, otherwise set `is_deleted = true` and
`updated_at = now` on that row and persist — the row itself is kept. -/
def deleteTransaction (transactions : List DbTxn) (transactionId userId : Nat)
    (now : Int) : Except String (List DbTxn) :=
  if transactions.any (fun t => t.id == transactionId && t.user_id == userId) then
    .ok (updateFirst (fun t => t.id == transactionId && t.user_id == userId)
      (fun t => { t with is_deleted := true, updated_at := now }) transactions)
  else .error "transaction not found"

/-- Parsed shape of the `FinanceTrackerDB` blob; only the presence of the
expected `tables` collections matters for the load claims. -/
structure DbSnapshot where
  tables : Option Unit

/-- `JSON.parse('{}')` for the database blob: no `tables` property. -/
def DbSnapshot.emptyObject : DbSnapshot := ⟨none⟩

/-- `FinanceDatabase.getDatabase` (src/database.js:260-267):
`JSON.parse(localStorage.getItem(dbName) || '{}')`; a missing payload parses
the substituted `'{}'`; a corrupt one throws and the catch returns
`this.createDatabase()` — a method with no return statement, i.e. JS
`undefined`, modelled `none`. -/
def getDatabase : CloudPayload → Option DbSnapshot
  | .missing => some DbSnapshot.emptyObject
  | .corrupt => none
  | .valid _ => some ⟨some ()⟩

end FinanceDatabase

/-- Status of an outbound sync queue item. -/
inductive QueueStatus : Type where
  | pending
  | completed
  | failed
deriving DecidableEq

/-- Modelled from the spec: the Outbound Sync Queue item of section 3 —
`{id, operation, targetCollection, recordId, payload, createdAt, retryCount,
status}`. The source declares the queue (`this.pendingOperations = []`,
src/database.js:845) but contains no enqueue or drain logic, so the item
shape is taken from the words of the spec. -/
structure QueueItem where
  id : Nat
  operation : String
  targetCollection : String
  recordId : String
  retryCount : Nat
  status : QueueStatus
deriving DecidableEq

/-- Modelled from the spec: one drain attempt on one queue item (section 4.5)
— only `pending` items are attempted; on success mark `completed`; on failure
increment `retryCount`, and once it exceeds the ceiling of 3 mark `failed`
permanently. `ok` is the outcome of the attempted remote write. The drain
itself is missing from src/, only the `pendingOperations` declaration
exists. -/
def drainStep (ok : QueueItem → Bool) (item : QueueItem) : QueueItem :=
  match item.status with
  | .pending =>
      if ok item then { item with status := .completed }
      else
        let rc := item.retryCount + 1
        if rc > 3 then { item with retryCount := rc, status := .failed }
        else { item with retryCount := rc }
  | _ => item

/-- Modelled from the spec: `drain()` iterates all items once, attempting the
pending ones; completed and failed items are retained in the backing list. -/
def drain (ok : QueueItem → Bool) (q : List QueueItem) : List QueueItem :=
  q.map (drainStep ok)

/-- Modelled from the spec: the attempt set of a drain — the items it will
actually try, i.e. the `pending` ones. -/
def attemptSet (q : List QueueItem) : List QueueItem :=
  q.filter (fun i => i.status == .pending)

/-- Sortedness by `date` descending (ties allowed), the order produced by the
JS sort at the end of the merge. -/
def DateSortedDesc (l : List Txn) : Prop :=
  l.Pairwise (fun a b => b.date ≤ a.date)

/-- The local record of the spec scenario for the merge:
`{id:"a", createdAt:"2024-01-01T00:00:00Z", amount:100}`; the `createdAt`
integer is the epoch-millisecond value of that instant. -/
def l0 : Txn := .mk "a" 0 1704067200000 100 false "pending" none none none none none

/-- The remote record of the spec scenario:
`{id:"a", createdAt:"2024-01-02T00:00:00Z", amount:150}`. -/
def r0 : Txn := .mk "a" 0 1704153600000 150 false "synced" none none none none none

/-- A local-only record (id "b"), absent from the cloud set. -/
def a0 : Txn := .mk "b" 0 5 10 false "pending" none none none none none

/-- A soft-deleted record with the newer `createdAt`. -/
def tDel : Txn := .mk "a" 0 2 100 true "pending" none none none none none

/-- An older, non-deleted duplicate of `tDel` (same id, earlier
`createdAt`). -/
def tOld : Txn := .mk "a" 0 1 100 false "synced" none none none none none

/-- A local record tying `tieC` on `createdAt`. -/
def tieL : Txn := .mk "L" 0 7 1 false "pending" none none none none none

/-- A cloud record tying `tieL` on `createdAt`. -/
def tieC : Txn := .mk "C" 0 7 2 false "synced" none none none none none

/-- A fully populated, empty cloud blob for one user. -/
def d1 : CloudData := ⟨some (), some (some []), some (), some [], some (), none⟩

/-- A world whose persistence layer rejects every write, with one unsynced
local record and an otherwise healthy cloud blob. -/
def w1 : World :=
  ⟨.valid d1, .valid [a0], true, some "u", false, "idle", none⟩

/-- A world with a sync cycle in flight. -/
def w0 : World :=
  ⟨.valid d1, .valid [], false, some "u", true, "idle", none⟩

/-- A fresh pending queue item. -/
def q0 : QueueItem := ⟨1, "create", "transactions", "b", 0, .pending⟩

/-- A stored transaction row of user 2. -/
def row0 : DbTxn := ⟨1, 2, 100, false, 0⟩

/-- A poison queue item: retry budget exhausted, permanently failed. -/
def qF : QueueItem := ⟨2, "create", "transactions", "c", 4, .failed⟩

/-- A cloud blob whose `transactions` object is absent (as after parsing
`'{}'` plus a later partial write), making `transactions[username]` throw. -/
def d2 : CloudData := ⟨some (), none, some (), some [], some (), none⟩

/-- A healthy world whose cloud blob lacks the `transactions` object. -/
def w2c : World :=
  ⟨.valid d2, .valid [], false, some "u", false, "idle", none⟩

@[simp] theorem setCloudSynced_id (t : Txn) : (setCloudSynced t).id = t.id := by
  cases t
  rfl

@[simp] theorem setCloudSynced_date (t : Txn) : (setCloudSynced t).date = t.date := by
  cases t
  rfl

@[simp] theorem setCloudSynced_deleted (t : Txn) :
    (setCloudSynced t).deleted = t.deleted := by
  cases t
  rfl

@[simp] theorem setCloudSynced_syncStatus (t : Txn) :
    (setCloudSynced t).syncStatus = "synced" := by
  cases t
  rfl

@[simp] theorem setCloudSynced_conflictResolution (t : Txn) :
    (setCloudSynced t).conflictResolution = t.conflictResolution := by
  cases t
  rfl

@[simp] theorem setLocalPending_id (t : Txn) : (setLocalPending t).id = t.id := by
  cases t
  rfl

@[simp] theorem setLocalPending_date (t : Txn) : (setLocalPending t).date = t.date := by
  cases t
  rfl

@[simp] theorem setLocalPending_syncStatus (t : Txn) :
    (setLocalPending t).syncStatus = "pending" := by
  cases t
  rfl

@[simp] theorem setLocalPending_conflictResolution (t : Txn) :
    (setLocalPending t).conflictResolution = t.conflictResolution := by
  cases t
  rfl

theorem find?_eq_none_of_not_seen (cloudTransactions : List Txn) (transaction : Txn)
    (h : transaction.id ∉ cloudTransactions.map Txn.id) :
    cloudTransactions.find? (fun t => t.id == transaction.id) = none := by
  rw [List.find?_eq_none]
  intro x hx
  simp only [beq_iff_eq]
  intro he
  exact h (he ▸ List.mem_map_of_mem Txn.id hx)

theorem mergeLocalStep_eq (cloudTransactions : List Txn) (acc : List Txn)
    (transaction : Txn) :
    mergeLocalStep cloudTransactions (cloudTransactions.map Txn.id) acc transaction =
      if transaction.id ∈ cloudTransactions.map Txn.id then acc
      else acc ++ [setLocalPending transaction] := by
  unfold mergeLocalStep
  split
  · rfl
  · rw [find?_eq_none_of_not_seen cloudTransactions transaction (by assumption)]

theorem mergeLocalStepCounted_eq (cloudTransactions : List Txn) (acc : List Txn × Nat)
    (transaction : Txn) :
    mergeLocalStepCounted cloudTransactions (cloudTransactions.map Txn.id) acc transaction =
      (mergeLocalStep cloudTransactions (cloudTransactions.map Txn.id) acc.1 transaction,
       acc.2) := by
  unfold mergeLocalStepCounted mergeLocalStep
  split
  · rfl
  · rw [find?_eq_none_of_not_seen cloudTransactions transaction (by assumption)]

theorem foldl_mergeLocalStep_all_seen (cloudTransactions : List Txn) :
    ∀ (L : List Txn) (acc : List Txn),
    (∀ t ∈ L, t.id ∈ cloudTransactions.map Txn.id) →
    L.foldl (mergeLocalStep cloudTransactions (cloudTransactions.map Txn.id)) acc = acc
  | [], acc, _ => rfl
  | t :: ts, acc, h => by
      rw [List.foldl_cons, mergeLocalStep_eq,
        if_pos (h t (List.mem_cons_self t ts))]
      exact foldl_mergeLocalStep_all_seen cloudTransactions ts acc
        (fun x hx => h x (List.mem_cons_of_mem t hx))

theorem mem_foldl_mergeLocalStep (cloudTransactions : List Txn) :
    ∀ (L acc : List Txn) (a : Txn), a ∈ acc →
    a ∈ L.foldl (mergeLocalStep cloudTransactions (cloudTransactions.map Txn.id)) acc
  | [], _, _, ha => ha
  | t :: ts, acc, a, ha => by
      rw [List.foldl_cons, mergeLocalStep_eq]
      apply mem_foldl_mergeLocalStep cloudTransactions ts _ a
      split
      · exact ha
      · exact List.mem_append_left _ ha

theorem foldl_mergeLocalStep_forall (cloudTransactions : List Txn) (P : Txn → Prop) :
    ∀ (L acc : List Txn),
    (∀ t ∈ L, P (setLocalPending t)) → (∀ t ∈ acc, P t) →
    ∀ a ∈ L.foldl (mergeLocalStep cloudTransactions (cloudTransactions.map Txn.id)) acc,
      P a
  | [], _, _, hacc, a, ha => hacc a ha
  | t :: ts, acc, hL, hacc, a, ha => by
      rw [List.foldl_cons, mergeLocalStep_eq] at ha
      refine foldl_mergeLocalStep_forall cloudTransactions P ts _
        (fun x hx => hL x (List.mem_cons_of_mem t hx)) ?_ a ha
      split
      · exact hacc
      · intro x hx
        rcases List.mem_append.mp hx with hx | hx
        · exact hacc x hx
        · rw [List.mem_singleton.mp hx]
          exact hL t (List.mem_cons_self t ts)

theorem foldl_counted_eq (cloudTransactions : List Txn) :
    ∀ (L acc : List Txn) (n : Nat),
    L.foldl (mergeLocalStepCounted cloudTransactions (cloudTransactions.map Txn.id))
      (acc, n) =
    (L.foldl (mergeLocalStep cloudTransactions (cloudTransactions.map Txn.id)) acc, n)
  | [], _, _ => rfl
  | t :: ts, acc, n => by
      rw [List.foldl_cons, List.foldl_cons, mergeLocalStepCounted_eq]
      exact foldl_counted_eq cloudTransactions ts _ n

theorem mem_insertByDateDesc {a x : Txn} : ∀ {l : List Txn},
    a ∈ insertByDateDesc x l ↔ a = x ∨ a ∈ l
  | [] => by simp [insertByDateDesc]
  | y :: ys => by
      unfold insertByDateDesc
      split
      · simp
      · simp only [List.mem_cons, mem_insertByDateDesc (l := ys)]
        tauto

theorem mem_sortByDateDesc {a : Txn} : ∀ {l : List Txn},
    a ∈ sortByDateDesc l ↔ a ∈ l
  | [] => Iff.rfl
  | x :: xs => by
      unfold sortByDateDesc
      rw [mem_insertByDateDesc, mem_sortByDateDesc (l := xs), List.mem_cons]

theorem dateSortedDesc_insert {x : Txn} : ∀ {l : List Txn},
    DateSortedDesc l → DateSortedDesc (insertByDateDesc x l)
  | [], _ => List.pairwise_singleton _ x
  | y :: ys, h => by
      unfold insertByDateDesc
      rcases List.pairwise_cons.mp h with ⟨hy, hys⟩
      split
      · rename_i hle
        exact List.pairwise_cons.mpr
          ⟨fun z hz => by
            rcases List.mem_cons.mp hz with rfl | hz
            · exact hle
            · exact le_trans (hy z hz) hle, h⟩
      · rename_i hlt
        refine List.pairwise_cons.mpr ⟨fun z hz => ?_, dateSortedDesc_insert hys⟩
        rcases mem_insertByDateDesc.mp hz with rfl | hz
        · exact le_of_not_le hlt
        · exact hy z hz

theorem dateSortedDesc_sort : ∀ (l : List Txn), DateSortedDesc (sortByDateDesc l)
  | [] => List.Pairwise.nil
  | _ :: xs => dateSortedDesc_insert (dateSortedDesc_sort xs)

theorem insertByDateDesc_eq_cons {x : Txn} {l : List Txn}
    (h : ∀ z ∈ l, z.date ≤ x.date) : insertByDateDesc x l = x :: l := by
  cases l with
  | nil => rfl
  | cons y ys =>
      unfold insertByDateDesc
      rw [if_pos (h y (List.mem_cons_self y ys))]

theorem sortByDateDesc_eq_self : ∀ {l : List Txn}, DateSortedDesc l → sortByDateDesc l = l
  | [], _ => rfl
  | x :: xs, h => by
      rcases List.pairwise_cons.mp h with ⟨hx, hxs⟩
      unfold sortByDateDesc
      rw [sortByDateDesc_eq_self hxs, insertByDateDesc_eq_cons hx]

theorem dateSortedDesc_map_setCloudSynced {l : List Txn} (h : DateSortedDesc l) :
    DateSortedDesc (l.map setCloudSynced) := by
  unfold DateSortedDesc at *
  rw [List.pairwise_map]
  simpa only [setCloudSynced_date] using h

/-- C1, as stated, is false: merging the merge output with itself is not a
no-op. At the concrete input A = [a0], B = [] the first merge tags the
local-only record `pending`; the second merge retags it `synced`, changing
its `syncStatus`. -/
theorem c1_counterexample :
    (SyncEngine.syncTransactions [a0] []).map Txn.syncStatus = ["pending"] ∧
    (SyncEngine.syncTransactions (SyncEngine.syncTransactions [a0] [])
        (SyncEngine.syncTransactions [a0] [])).map Txn.syncStatus = ["synced"] ∧
    SyncEngine.syncTransactions (SyncEngine.syncTransactions [a0] [])
        (SyncEngine.syncTransactions [a0] []) ≠ SyncEngine.syncTransactions [a0] [] := by
  refine ⟨by decide, by decide, fun h => ?_⟩
  exact absurd (congrArg (List.map Txn.syncStatus) h) (by decide)

/-- C1 amended: for all record sets A and B, running merge on its own output
(as both arguments) returns exactly that output with every record retagged
`syncStatus = synced`, `source = cloud` — the records, their order and their
data are stable, but records that were `pending` suffer status churn, so the
second pass is a no-op only up to this retagging (the merge touches no queue
at all, so the no-duplicate-queue-entries part is vacuous). -/
theorem c1_merge_self_retags (A B : List Txn) :
    SyncEngine.syncTransactions (SyncEngine.syncTransactions A B)
      (SyncEngine.syncTransactions A B) =
    (SyncEngine.syncTransactions A B).map setCloudSynced := by
  set M := SyncEngine.syncTransactions A B with hM
  have hs : DateSortedDesc M := by
    rw [hM]
    unfold SyncEngine.syncTransactions
    exact dateSortedDesc_sort _
  unfold SyncEngine.syncTransactions
  rw [foldl_mergeLocalStep_all_seen M M _ (fun t ht => List.mem_map_of_mem Txn.id ht)]
  exact sortByDateDesc_eq_self (dateSortedDesc_map_setCloudSynced hs)

/-- C2, as stated, is false: on the spec scenario inputs the merge does yield
the remote version with `syncStatus = synced`, but no `cloud_wins` resolution
tag is attached — the merged record carries no `conflictResolution` at all,
because the resolver is bypassed. -/
theorem c2_counterexample :
    l0.id = r0.id ∧ l0.createdAt < r0.createdAt ∧ r0.amount = 150 ∧
    (SyncEngine.syncTransactions [l0] [r0]).map Txn.conflictResolution = [none] ∧
    (none : Option String) ≠ some "cloud_wins" := by decide

/-- C2 amended: on the scenario inputs the merge yields exactly the remote
version spread with `syncStatus = synced` and `source = cloud` (amount 150),
with no resolution tag. -/
theorem c2_scenario_remote_copy :
    SyncEngine.syncTransactions [l0] [r0] = [setCloudSynced r0] ∧
    (setCloudSynced r0).amount = 150 ∧
    (setCloudSynced r0).syncStatus = "synced" ∧
    (setCloudSynced r0).conflictResolution = none :=
  ⟨rfl, rfl, rfl, rfl⟩

/-- C3 confirmed: `resolve` is a total function; when the local record's
`createdAt` is strictly later it returns the local version (every data field
of the local record) tagged `conflict_resolved` / `local_wins` with the
remote attached as `originalCloudVersion`; otherwise — equal timestamps
included, since the strict comparison then fails — it returns the remote
version tagged `synced` / `cloud_wins` with the local attached as
`originalLocalVersion`. -/
theorem c3_resolve_total (localTransaction cloudTransaction : Txn) :
    (ConflictResolver.resolve localTransaction cloudTransaction =
      if cloudTransaction.createdAt < localTransaction.createdAt then
        Txn.mk localTransaction.id localTransaction.date localTransaction.createdAt
          localTransaction.amount localTransaction.deleted "conflict_resolved"
          localTransaction.source (some "local_wins") (some cloudTransaction)
          localTransaction.originalLocalVersion localTransaction.created_at
      else
        Txn.mk cloudTransaction.id cloudTransaction.date cloudTransaction.createdAt
          cloudTransaction.amount cloudTransaction.deleted "synced"
          cloudTransaction.source (some "cloud_wins")
          cloudTransaction.originalCloudVersion (some localTransaction)
          cloudTransaction.created_at) ∧
    (localTransaction.createdAt = cloudTransaction.createdAt →
      ConflictResolver.resolve localTransaction cloudTransaction =
        Txn.mk cloudTransaction.id cloudTransaction.date cloudTransaction.createdAt
          cloudTransaction.amount cloudTransaction.deleted "synced"
          cloudTransaction.source (some "cloud_wins")
          cloudTransaction.originalCloudVersion (some localTransaction)
          cloudTransaction.created_at) := by
  obtain ⟨li, ld, lc, la, ldel, ls, lsrc, lcr, locv, lolv, lca⟩ := localTransaction
  obtain ⟨ci, cd, cc, ca', cdel, cs, csrc, ccr, cocv, colv, cca⟩ := cloudTransaction
  constructor
  · simp only [ConflictResolver.resolve, Txn.id, Txn.date, Txn.createdAt, Txn.amount,
      Txn.deleted, Txn.source, Txn.originalCloudVersion, Txn.originalLocalVersion,
      Txn.created_at]
  · intro h
    simp only [Txn.createdAt] at h
    simp only [ConflictResolver.resolve, Txn.id, Txn.date, Txn.createdAt, Txn.amount,
      Txn.deleted, Txn.source, Txn.originalCloudVersion, Txn.originalLocalVersion,
      Txn.created_at]
    rw [if_neg (by omega)]

/-- Witness for the tie clause of `c3_resolve_total` at concrete records with
equal `createdAt`. -/
theorem c3_witness :
    ConflictResolver.resolve tieL tieC =
      Txn.mk tieC.id tieC.date tieC.createdAt tieC.amount tieC.deleted "synced"
        tieC.source (some "cloud_wins") tieC.originalCloudVersion (some tieL)
        tieC.created_at :=
  (c3_resolve_total tieL tieC).2 rfl

/-- C4, as stated, is false: when the soft-deleted record with the newer
`createdAt` sits on the local side and an older non-deleted duplicate sits in
the cloud set, the merge output contains only the old non-deleted version —
the deletion is overwritten. -/
theorem c4_counterexample :
    tDel.deleted = true ∧ tOld.deleted = false ∧ tOld.createdAt < tDel.createdAt ∧
    tDel.id = tOld.id ∧
    (SyncEngine.syncTransactions [tDel] [tOld]).map
      (fun t => (t.id, t.deleted, t.createdAt)) = [("a", false, 1)] := by decide

/-- C4 amended: durability holds only for the cloud side — every cloud record,
in particular a soft-deleted one with the newer `createdAt`, is always present
in the merge output (retagged `synced`), still deleted; a locally
soft-deleted record sharing its id with any cloud record is dropped in favor
of the cloud version regardless of timestamps. -/
theorem c4_cloud_deleted_preserved (A B : List Txn) (t : Txn)
    (ht : t ∈ B) (hdel : t.deleted = true) :
    setCloudSynced t ∈ SyncEngine.syncTransactions A B ∧
    (setCloudSynced t).deleted = true := by
  constructor
  · unfold SyncEngine.syncTransactions
    rw [mem_sortByDateDesc]
    exact mem_foldl_mergeLocalStep B A _ _ (List.mem_map_of_mem setCloudSynced ht)
  · rw [setCloudSynced_deleted]
    exact hdel

/-- Witness for `c4_cloud_deleted_preserved` with the deleted record `tDel`
in the cloud set. -/
theorem c4_witness :
    setCloudSynced tDel ∈ SyncEngine.syncTransactions [tOld] [tDel] ∧
    (setCloudSynced tDel).deleted = true :=
  c4_cloud_deleted_preserved [tOld] [tDel] tDel (List.mem_singleton.mpr rfl) rfl

/-- C5, as stated, is false for the sync engine: `SyncEngine.deleteTransaction`
physically filters the record out of both the cloud store and the local
store — nothing is retained with a `deleted` flag. -/
theorem c5_counterexample :
    tDel.id = "a" ∧
    SyncEngine.deleteTransaction [tDel] [tDel] "a" = ([], []) :=
  ⟨rfl, rfl⟩

theorem updateFirst_length (p : DbTxn → Bool) (f : DbTxn → DbTxn) :
    ∀ l : List DbTxn, (updateFirst p f l).length = l.length
  | [] => rfl
  | t :: ts => by
      unfold updateFirst
      split
      · rfl
      · simp [updateFirst_length p f ts]

theorem updateFirst_any_spec (p : DbTxn → Bool) (f : DbTxn → DbTxn) :
    ∀ l : List DbTxn, l.any p = true →
    ∃ t, t ∈ l ∧ p t = true ∧ f t ∈ updateFirst p f l
  | [], h => by simp at h
  | t :: ts, h => by
      unfold updateFirst
      by_cases hp : p t = true
      · refine ⟨t, List.mem_cons_self t ts, hp, ?_⟩
        rw [if_pos hp]
        exact List.mem_cons_self _ _
      · have hts : ts.any p = true := by
          rcases List.any_eq_true.mp h with ⟨x, hx, hpx⟩
          rcases List.mem_cons.mp hx with rfl | hx
          · exact absurd hpx hp
          · exact List.any_eq_true.mpr ⟨x, hx, hpx⟩
        obtain ⟨u, hu, hpu, hmem⟩ := updateFirst_any_spec p f ts hts
        refine ⟨u, List.mem_cons_of_mem t hu, hpu, ?_⟩
        rw [if_neg hp]
        exact List.mem_cons_of_mem t hmem

/-- C5 amended: only `FinanceDatabase.deleteTransaction` soft-deletes — when
the row exists it is kept (the store keeps its length) with `is_deleted` set
to `true`; `SyncEngine.deleteTransaction` instead removes the record from
both replicas (see the counterexample). -/
theorem c5_financedb_soft_delete (transactions : List DbTxn)
    (transactionId userId : Nat) (now : Int)
    (h : transactions.any (fun t => t.id == transactionId && t.user_id == userId) = true) :
    ∃ ts, FinanceDatabase.deleteTransaction transactions transactionId userId now = .ok ts ∧
      ts.length = transactions.length ∧
      ∃ t ∈ ts, t.id = transactionId ∧ t.user_id = userId ∧ t.is_deleted = true := by
  unfold FinanceDatabase.deleteTransaction
  rw [if_pos h]
  obtain ⟨t, _, hpt, hmem⟩ := updateFirst_any_spec _ _ transactions h
  simp only [Bool.and_eq_true, beq_iff_eq] at hpt
  exact ⟨_, rfl, updateFirst_length _ _ transactions,
    ⟨_, hmem, hpt.1, hpt.2, rfl⟩⟩

/-- Witness for `c5_financedb_soft_delete` on a one-row store. -/
theorem c5_witness :
    ∃ ts, FinanceDatabase.deleteTransaction [row0] 1 2 7 = .ok ts ∧
      ts.length = [row0].length ∧
      ∃ t ∈ ts, t.id = 1 ∧ t.user_id = 2 ∧ t.is_deleted = true :=
  c5_financedb_soft_delete [row0] 1 2 7 (by decide)

/-- C10 confirmed: the conflict-resolution branch of the merge is dead code.
The instrumented merge counts zero resolver invocations on every input pair
and agrees with the real merge; every output record is tagged `synced` or
`pending` (never `conflict_resolved`), and when no input record carries a
`conflictResolution` tag, no output record does either. -/
theorem c10_resolver_unreachable (A B : List Txn)
    (hA : ∀ t ∈ A, t.conflictResolution = none)
    (hB : ∀ t ∈ B, t.conflictResolution = none) :
    (syncTransactionsCounted A B).2 = 0 ∧
    (syncTransactionsCounted A B).1 = SyncEngine.syncTransactions A B ∧
    ∀ t ∈ SyncEngine.syncTransactions A B,
      (t.syncStatus = "synced" ∨ t.syncStatus = "pending") ∧
      t.conflictResolution = none := by
  have key : A.foldl (mergeLocalStepCounted B (B.map Txn.id)) (B.map setCloudSynced, 0)
      = (A.foldl (mergeLocalStep B (B.map Txn.id)) (B.map setCloudSynced), 0) :=
    foldl_counted_eq B A _ 0
  refine ⟨?_, ?_, ?_⟩
  · unfold syncTransactionsCounted
    rw [key]
  · unfold syncTransactionsCounted SyncEngine.syncTransactions
    rw [key]
  · intro t ht
    unfold SyncEngine.syncTransactions at ht
    rw [mem_sortByDateDesc] at ht
    refine foldl_mergeLocalStep_forall B
      (fun t => (t.syncStatus = "synced" ∨ t.syncStatus = "pending") ∧
        t.conflictResolution = none)
      A _ ?_ ?_ t ht
    · intro x hx
      refine ⟨Or.inr (setLocalPending_syncStatus x), ?_⟩
      rw [setLocalPending_conflictResolution]
      exact hA x hx
    · intro x hx
      rcases List.mem_map.mp hx with ⟨b, hb, rfl⟩
      refine ⟨Or.inl (setCloudSynced_syncStatus b), ?_⟩
      rw [setCloudSynced_conflictResolution]
      exact hB b hb

/-- Witness for `c10_resolver_unreachable` at a concrete pair: zero resolver
invocations, and the record emitted for the cloud input is `synced` with no
tag. -/
theorem c10_witness :
    (syncTransactionsCounted [a0] [r0]).2 = 0 ∧
    ((setCloudSynced r0).syncStatus = "synced" ∨
      (setCloudSynced r0).syncStatus = "pending") ∧
    (setCloudSynced r0).conflictResolution = none := by
  have h := c10_resolver_unreachable [a0] [r0] (by decide) (by decide)
  have hm : setCloudSynced r0 ∈ SyncEngine.syncTransactions [a0] [r0] := by
    unfold SyncEngine.syncTransactions
    rw [mem_sortByDateDesc]
    exact mem_foldl_mergeLocalStep [r0] [a0] _ _ (by simp)
  exact ⟨h.1, (h.2.2 _ hm).1, (h.2.2 _ hm).2⟩

theorem drainStep_failed (ok : QueueItem → Bool) (item : QueueItem)
    (h : item.status = .failed) : drainStep ok item = item := by
  unfold drainStep
  rw [h]

/-- C6 confirmed against the spec-modelled queue: a drain attempt on a
`pending` item either completes it or increments its `retryCount`; once the
count exceeds the ceiling of 3 the item becomes `failed`; a `failed` item is
fixed by every later drain, absent from every attempt set, yet retained by
the drain (`drain` keeps the list length); and a fresh item subjected to four
consecutive failing attempts is `failed`, with the fifth attempt a no-op. -/
theorem c6_retry_ceiling (ok : QueueItem → Bool) (item : QueueItem) :
    (item.status = .pending → ok item = true →
      drainStep ok item = { item with status := .completed }) ∧
    (item.status = .pending → ok item = false →
      (drainStep ok item).retryCount = item.retryCount + 1 ∧
      (3 < item.retryCount + 1 → (drainStep ok item).status = .failed) ∧
      (item.retryCount + 1 ≤ 3 → (drainStep ok item).status = .pending)) ∧
    (item.status = .failed →
      (∀ n, (drainStep ok)^[n] item = item) ∧ attemptSet [item] = []) ∧
    (∀ q, (drain ok q).length = q.length) ∧
    (item.status = .pending → item.retryCount = 0 →
      (drainStep (fun _ => false) (drainStep (fun _ => false) (drainStep (fun _ => false)
        (drainStep (fun _ => false) item)))).status = .failed ∧
      drainStep (fun _ => false) (drainStep (fun _ => false) (drainStep (fun _ => false)
        (drainStep (fun _ => false) (drainStep (fun _ => false) item)))) =
      drainStep (fun _ => false) (drainStep (fun _ => false) (drainStep (fun _ => false)
        (drainStep (fun _ => false) item))) ∧
      attemptSet [drainStep (fun _ => false) (drainStep (fun _ => false)
        (drainStep (fun _ => false) (drainStep (fun _ => false) item)))] = []) := by
  refine ⟨?_, ?_, ?_, ?_, ?_⟩
  · intro h1 h2
    simp [drainStep, h1, h2]
  · intro h1 h2
    by_cases h3 : 3 < item.retryCount + 1
    · refine ⟨?_, fun _ => ?_, fun h4 => absurd h3 (by omega)⟩ <;>
        simp [drainStep, h1, h2, h3]
    · refine ⟨?_, fun h4 => absurd h4 h3, fun _ => ?_⟩ <;>
        simp [drainStep, h1, h2, h3]
  · intro h1
    have hb : (item.status == QueueStatus.pending) = false := by
      rw [h1]
      rfl
    refine ⟨fun n => ?_, by simp [attemptSet, hb]⟩
    induction n with
    | zero => rfl
    | succ n ih =>
        rw [Function.iterate_succ_apply, drainStep_failed _ _ h1]
        exact ih
  · intro q
    unfold drain
    exact List.length_map q _
  · intro h1 h2
    refine ⟨?_, ?_, ?_⟩ <;>
      simp [drainStep, attemptSet, h1, h2]

/-- Witness for `c6_retry_ceiling`, discharging each hypothesis at concrete
items: a successful attempt completes `q0`; a failing attempt increments its
count; the poison item `qF` is outside the attempt set; a drain retains the
list; four failing attempts poison `q0`. -/
theorem c6_witness :
    drainStep (fun _ => true) q0 = { q0 with status := .completed } ∧
    (drainStep (fun _ => false) q0).retryCount = q0.retryCount + 1 ∧
    attemptSet [qF] = [] ∧
    (drain (fun _ => false) [q0]).length = [q0].length ∧
    (drainStep (fun _ => false) (drainStep (fun _ => false) (drainStep (fun _ => false)
      (drainStep (fun _ => false) q0)))).status = .failed := by
  have ht := c6_retry_ceiling (fun _ => true) q0
  have hf := c6_retry_ceiling (fun _ => false) q0
  have hq := c6_retry_ceiling (fun _ => false) qF
  exact ⟨ht.1 rfl rfl, (hf.2.1 rfl rfl).1, (hq.2.2.1 rfl).2,
    hf.2.2.2.1 [q0], (hf.2.2.2.2 rfl rfl).1⟩

/-- C7 confirmed: while a cycle is in flight (`syncInProgress = true`) the
explicit `performSync` call returns at once with the state untouched and no
reconciliation, and every change-detection trigger — focus, visibility,
timer tick, storage change — and `forceSync` likewise leaves the state
unchanged, so two triggers fired during a running cycle add no second
reconciliation execution. -/
theorem c7_mutual_exclusion (now : Int) (w : World) (h : w.syncInProgress = true) :
    SyncEngine.performSync now w = (w, false) ∧
    SyncEngine.onFocus now w = w ∧
    (∀ hidden, SyncEngine.onVisibilityChange now hidden w = w) ∧
    (∀ visible, SyncEngine.onTimerTick now visible w = w) ∧
    (∀ newTs oldTs, SyncEngine.handleStorageChange now newTs oldTs w = w) ∧
    (w.username.isSome = true → SyncEngine.forceSync now w = .ok w) := by
  have hp : SyncEngine.performSync now w = (w, false) := by
    unfold SyncEngine.performSync
    rw [h]
    simp
  refine ⟨hp, ?_, ?_, ?_, ?_, ?_⟩
  · unfold SyncEngine.onFocus
    rw [h]
    simp
  · intro hidden
    unfold SyncEngine.onVisibilityChange
    rw [h]
    simp
  · intro visible
    unfold SyncEngine.onTimerTick
    rw [h]
    simp
  · intro newTs oldTs
    unfold SyncEngine.handleStorageChange
    rw [h]
    simp
  · intro hu
    unfold SyncEngine.forceSync
    cases hw : w.username with
    | none => rw [hw] at hu; simp at hu
    | some u => simp [hw, hp]

/-- Witness for `c7_mutual_exclusion` at the in-flight world `w0`. -/
theorem c7_witness :
    SyncEngine.performSync 0 w0 = (w0, false) ∧
    SyncEngine.onFocus 0 w0 = w0 ∧
    SyncEngine.onVisibilityChange 0 false w0 = w0 ∧
    SyncEngine.onTimerTick 0 true w0 = w0 ∧
    SyncEngine.handleStorageChange 0 [] [] w0 = w0 ∧
    SyncEngine.forceSync 0 w0 = .ok w0 := by
  have h := c7_mutual_exclusion 0 w0 rfl
  exact ⟨h.1, h.2.1, h.2.2.1 false, h.2.2.2.1 true, h.2.2.2.2.1 [] [],
    h.2.2.2.2.2 rfl⟩

/-- C8, as stated, is false: a missing cloud payload is parsed as `'{}'` and
yields an object with none of the expected collections (reading
`transactions` or `syncLog` on it gives `undefined`), and a corrupt database
payload makes `getDatabase` return `createDatabase()`, which returns
`undefined` — both malformed values reach the caller. -/
theorem c8_counterexample :
    (SyncEngine.getCloudData .missing).transactions = none ∧
    (SyncEngine.getCloudData .missing).syncLog = none ∧
    FinanceDatabase.getDatabase .corrupt = none :=
  ⟨rfl, rfl, rfl⟩

/-- C8 amended: only some loaders recover as claimed. `getCloudData` returns
the full well-typed default exactly on a corrupt (unparseable) payload, but
an empty object without the collections on a missing one;
`getLocalTransactions` returns `[]` in both cases; `getDatabase` returns an
empty object on a missing payload and `undefined` on a corrupt one. -/
theorem c8_load_defaults :
    SyncEngine.getCloudData .corrupt = CloudData.defaultData ∧
    (SyncEngine.getCloudData .corrupt).transactions = some none ∧
    (SyncEngine.getCloudData .corrupt).syncLog = some [] ∧
    SyncEngine.getCloudData .missing = CloudData.emptyObject ∧
    SyncEngine.getLocalTransactions .missing = [] ∧
    SyncEngine.getLocalTransactions .corrupt = [] ∧
    FinanceDatabase.getDatabase .missing = some FinanceDatabase.DbSnapshot.emptyObject ∧
    FinanceDatabase.getDatabase .corrupt = none :=
  ⟨rfl, rfl, rfl, rfl, rfl, rfl, rfl, rfl⟩

theorem uiStatus_saveCloudData (w : World) (d : CloudData) (now : Int) :
    (SyncEngine.saveCloudData w d now).1.uiStatus = w.uiStatus := by
  unfold SyncEngine.saveCloudData
  split <;> rfl

theorem logSyncEvent_uiStatus (w : World) (ev : String) (now : Int) (w2 : World)
    (h : SyncEngine.logSyncEvent w ev now = some w2) : w2.uiStatus = w.uiStatus := by
  simp only [SyncEngine.logSyncEvent] at h
  cases hl : (SyncEngine.getCloudData w.cloudPayload).syncLog with
  | none =>
      rw [hl] at h
      exact Option.noConfusion h
  | some lg =>
      rw [hl] at h
      have h' := Option.some.inj h
      rw [← h']
      exact uiStatus_saveCloudData _ _ _

theorem syncErrorExit_uiStatus (w : World) (now : Int) :
    (SyncEngine.syncErrorExit w now).uiStatus = "error" := by
  unfold SyncEngine.syncErrorExit
  cases hl : SyncEngine.logSyncEvent { w with uiStatus := "error" } "sync_error" now with
  | none => simp [hl]
  | some w2 =>
      simp [hl]
      exact logSyncEvent_uiStatus _ _ _ _ hl

/-- C9, as stated, is false: in the world `w1` the persistence layer rejects
every write (`writesFail = true`), and there are unsynced local changes, yet
the cycle ends with status `synced` — not `error` — and the rejected writes
leave both payloads untouched. The write failure is swallowed inside the save
helpers and the cycle is reported successful. -/
theorem c9_counterexample :
    w1.writesFail = true ∧
    (SyncEngine.performSync 5 w1).1.uiStatus = "synced" ∧
    (SyncEngine.performSync 5 w1).1.uiStatus ≠ "error" ∧
    (SyncEngine.performSync 5 w1).1.cloudPayload = CloudPayload.valid d1 ∧
    (SyncEngine.performSync 5 w1).1.localPayload = LocalPayload.valid [a0] :=
  ⟨rfl, rfl, by decide, rfl, rfl⟩

/-- C9 amended: `saveCloudData` and `saveLocalTransactions` catch a rejected
write and return `false`, which `performSync` ignores — so whenever the cycle
body runs with a well-formed cloud blob, it ends with status `synced` whether
or not the persistence layer rejected the writes; the machine reaches `error`
not on write rejection but on an exception inside the try block, e.g. a cloud
blob whose `transactions` object is absent. -/
theorem c9_write_failure_swallowed (w : World) (now : Int) (d : CloudData)
    (hu : w.username.isSome = true) (hs : w.syncInProgress = false)
    (hp : w.cloudPayload = .valid d) :
    (∀ entry, d.transactions = some entry → ∀ lg, d.syncLog = some lg →
      (SyncEngine.performSync now w).1.uiStatus = "synced") ∧
    (d.transactions = none → (SyncEngine.performSync now w).1.uiStatus = "error") := by
  obtain ⟨u, hwu⟩ := Option.isSome_iff_exists.mp hu
  constructor
  · intro entry htr lg hlg
    cases hwf : w.writesFail with
    | false =>
        cases hh : SyncEngine.hasLocalChanges
            (SyncEngine.getLocalTransactions w.localPayload) (entry.getD []) with
        | false =>
            simp [SyncEngine.performSync, SyncEngine.getCloudData,
              SyncEngine.saveLocalTransactions, SyncEngine.saveCloudData,
              SyncEngine.logSyncEvent, hwu, hs, hp, htr, hlg, hwf, hh]
        | true =>
            simp [SyncEngine.performSync, SyncEngine.getCloudData,
              SyncEngine.saveLocalTransactions, SyncEngine.saveCloudData,
              SyncEngine.logSyncEvent, hwu, hs, hp, htr, hlg, hwf, hh]
    | true =>
        cases hh : SyncEngine.hasLocalChanges
            (SyncEngine.getLocalTransactions w.localPayload) (entry.getD []) with
        | false =>
            simp [SyncEngine.performSync, SyncEngine.getCloudData,
              SyncEngine.saveLocalTransactions, SyncEngine.saveCloudData,
              SyncEngine.logSyncEvent, hwu, hs, hp, htr, hlg, hwf, hh]
        | true =>
            simp [SyncEngine.performSync, SyncEngine.getCloudData,
              SyncEngine.saveLocalTransactions, SyncEngine.saveCloudData,
              SyncEngine.logSyncEvent, hwu, hs, hp, htr, hlg, hwf, hh]
  · intro htr
    have hexit := syncErrorExit_uiStatus w now
    simp [SyncEngine.performSync, SyncEngine.getCloudData, hwu, hs, hp, htr]
    exact hexit

/-- Witness for `c9_write_failure_swallowed`: in `w1` (writes rejected, one
unsynced local record) the cycle still reports `synced`; in `w2c` (cloud blob
without a `transactions` object) it reports `error`. -/
theorem c9_witness :
    (SyncEngine.performSync 5 w1).1.uiStatus = "synced" ∧
    (SyncEngine.performSync 3 w2c).1.uiStatus = "error" :=
  ⟨(c9_write_failure_swallowed w1 5 d1 rfl rfl rfl).1 (some []) rfl [] rfl,
   (c9_write_failure_swallowed w2c 3 d2 rfl rfl rfl).2 rfl⟩
